import Mathlib

/- Verification of the blog platform's controller logic (auth and post
endpoints) against its specification.  The JavaScript controllers are
shallowly embedded: the document store is a list of documents, each request
handler is a pure function from the store and the request data to a result
(`Except` for the error envelope) paired with the updated store. -/

namespace Blog

/-- User identities (Mongo ObjectIds) are modelled as naturals. -/
abbrev UserId := Nat

/-- The `ErrorResponse(message, statusCode)` error value passed to `next`. -/
structure ErrResp where
  message : String
  statusCode : Nat
deriving DecidableEq

/-- An embedded comment subdocument of a post. -/
structure Comment where
  id : Nat
  author : UserId
  content : String
deriving DecidableEq

/-- A post document, with the fields the controllers in scope read or write. -/
structure Post where
  id : Nat
  title : String
  content : String
  excerpt : String
  author : UserId
  category : Nat
  status : String
  views : Nat
  createdAt : Nat
  comments : List Comment
  likes : List UserId
deriving DecidableEq

/-- A user document; `password` holds the stored (hashed) credential. -/
structure User where
  id : Nat
  username : String
  email : String
  password : String
  role : String
deriving DecidableEq

/-- The authenticated caller injected by the auth middleware (`req.user`). -/
structure Caller where
  id : UserId
  role : String
deriving DecidableEq

def notFoundPost : ErrResp := ⟨"Post not found", 404⟩

def commentNotFound : ErrResp := ⟨"Comment not found", 404⟩

def categoryNotFound : ErrResp := ⟨"Category not found", 404⟩

def notAuthorizedUpdate : ErrResp := ⟨"Not authorized to update this post", 403⟩

def notAuthorizedDelete : ErrResp := ⟨"Not authorized to delete this post", 403⟩

def notAuthorizedComment : ErrResp := ⟨"Not authorized to delete this comment", 403⟩

def userExists : ErrResp := ⟨"User already exists", 400⟩

def invalidCredentials : ErrResp := ⟨"Invalid credentials", 401⟩

def validationFailed (msg : String) : ErrResp := ⟨msg, 400⟩

/- Part 1: model of the external `$regex` matcher.

`getPosts` passes the raw search string to MongoDB's `$regex` operator with
the `i` option.  We model the PCRE fragment relevant to the inputs we reason
about: a pattern is a sequence of tokens, each either a literal character or
the `.` wildcard; the `i` option compares characters after case folding.
Patterns using other PCRE metacharacters are outside the model, and every
general theorem below restricts its pattern to metacharacter-free strings. -/

/-- A regex pattern token: a literal character or the `.` wildcard. -/
inductive RTok where
  | lit (c : Char)
  | dot
deriving DecidableEq

/-- PCRE metacharacters (braces written by code point). -/
def isRegexMeta (c : Char) : Bool :=
  c ∈ ['.', '*', '+', '?', '^', '$', '(', ')', '[', ']', '|', '\\',
       Char.ofNat 123, Char.ofNat 125]

/-- Compile a raw pattern string into tokens: `.` is the wildcard, every
other character is a literal. -/
def regexToks (p : List Char) : List RTok :=
  p.map (fun c => if c = '.' then RTok.dot else RTok.lit c)

/-- Case-insensitive character comparison (the `i` option). -/
def chEqCI (a b : Char) : Bool := a.toLower == b.toLower

/-- Whether one token matches one subject character. -/
def tokMatches : RTok → Char → Bool
  | RTok.dot, _ => true
  | RTok.lit c, d => chEqCI c d

/-- Whether the token list matches a prefix of the subject. -/
def matchToksPre : List RTok → List Char → Bool
  | [], _ => true
  | _ :: _, [] => false
  | t :: ts, c :: cs => tokMatches t c && matchToksPre ts cs

/-- Whether the token list matches at some position of the subject
(unanchored search, as `$regex` performs). -/
def matchToksAt : List RTok → List Char → Bool
  | ts, [] => matchToksPre ts []
  | ts, c :: cs => matchToksPre ts (c :: cs) || matchToksAt ts cs

/-- Model of `{ $regex: pat, $options: 'i' }` applied to `subject`. -/
def regexMatchCI (pat subject : String) : Bool :=
  matchToksAt (regexToks pat.data) subject.data

/-- Case-insensitive prefix test between character lists (spec-side notion,
used to state what a plain substring match would be). -/
def chPre : List Char → List Char → Bool
  | [], _ => true
  | _ :: _, [] => false
  | a :: as, b :: bs => chEqCI a b && chPre as bs

/-- Case-insensitive substring occurrence between character lists. -/
def chSubAt : List Char → List Char → Bool
  | n, [] => chPre n []
  | n, c :: cs => chPre n (c :: cs) || chSubAt n cs

/-- The spec's wording of the search semantics: `needle` occurs in `hay` as a
case-insensitive plain substring. -/
def containsSubCI (needle hay : String) : Bool :=
  chSubAt needle.data hay.data

/- Part 2: `getPosts`, listing, filtering and pagination. -/

/-- The query parameters of `GET /api/posts` after number parsing: `page` and
`limit` are already naturals; a missing or empty string parameter is `none`
(an empty string is falsy in the controller's truthiness tests, so it is
equivalent to an absent parameter). -/
structure Query where
  search : Option String := none
  categoryId : Option Nat := none
  status : Option String := none
deriving DecidableEq

/-- The `$or` search clause built by `getPosts`: title or content matches the
search string as a case-insensitive regex. -/
def searchClause (s : String) (p : Post) : Bool :=
  regexMatchCI s p.title || regexMatchCI s p.content

/-- The Mongo filter object `query` built by `getPosts`, as a predicate on a
post: search clause when `search` is truthy, category equality when given,
and status equality, defaulting to `published` when the parameter is absent
or falsy. -/
def matchesQuery (q : Query) (p : Post) : Bool :=
  (match q.search with
   | none => true
   | some s => if s == "" then true else searchClause s p) &&
  (match q.categoryId with
   | none => true
   | some c => p.category == c) &&
  (match q.status with
   | none => p.status == "published"
   | some s => if s == "" then p.status == "published" else p.status == s)

/-- Insert a post into a list sorted by `createdAt` descending. -/
def insertByCreatedDesc (p : Post) : List Post → List Post
  | [] => [p]
  | q :: qs =>
    if q.createdAt < p.createdAt then p :: q :: qs else q :: insertByCreatedDesc p qs

/-- Model of `.sort(\x7b createdAt: -1 \x7d)`: sort by creation time
descending (Mongo leaves the relative order of ties unspecified; insertion
sort picks one such order). -/
def sortByCreatedDesc (l : List Post) : List Post :=
  l.foldr insertByCreatedDesc []

/-- Evaluation of `Math.ceil(total / limit)` on naturals. -/
def ceilDivNat (a b : Nat) : Nat := (a + b - 1) / b

/-- The `pagination` object of the list response. -/
structure PageMeta where
  current : Nat
  total : Nat
  hasNext : Bool
  hasPrev : Bool
deriving DecidableEq

/-- The body of the list response: item count, total matching documents,
pagination metadata and the page of posts. -/
structure PostsResp where
  count : Nat
  total : Nat
  pagination : PageMeta
  data : List Post
deriving DecidableEq

/-- Embedding of `getPosts`: count the documents matching the filter, then
return the page `skip((page-1)*limit).limit(limit)` of the matching
documents sorted by creation time descending, with pagination metadata
computed from the count. -/
def getPosts (store : List Post) (page limit : Nat) (q : Query) : PostsResp :=
  let startIndex := (page - 1) * limit
  let matching := store.filter (fun p => matchesQuery q p)
  let total := matching.length
  let items := ((sortByCreatedDesc matching).drop startIndex).take limit
  { count := items.length
    total := total
    pagination :=
      { current := page
        total := ceilDivNat total limit
        hasNext := decide (page < ceilDivNat total limit)
        hasPrev := decide (1 < page) }
    data := items }

/- Part 3: single-post operations. -/

/-- Lookup `Post.findById`: the first stored document with the given id. -/
def findPost (store : List Post) (pid : Nat) : Option Post :=
  store.find? (fun p => p.id == pid)

/-- Write-back `post.save()`: write the document back over every stored document
carrying its id. -/
def saveReplace (store : List Post) (p : Post) : List Post :=
  store.map (fun q => if q.id == p.id then p else q)

/-- Embedding of `getPost`: 404 and an untouched store when absent;
otherwise increment `views`, save, and return the updated post. -/
def getPost (store : List Post) (pid : Nat) : Except ErrResp Post × List Post :=
  match findPost store pid with
  | none => (Except.error notFoundPost, store)
  | some p =>
    let p2 := { p with views := p.views + 1 }
    (Except.ok p2, saveReplace store p2)

/-- Model of `Array.prototype.indexOf`: the first index holding `u`, `none` standing
for JavaScript's `-1`. -/
def idxOfJS (u : UserId) : List UserId → Option Nat
  | [] => none
  | v :: vs => if v == u then some 0 else (idxOfJS u vs).map (· + 1)

/-- The like-toggle on the raw likes array, exactly as `likePost` performs
it: `indexOf` the caller, push when absent (`-1`), `splice` out the found
index when present. -/
def toggleLikes (likes : List UserId) (u : UserId) : List UserId :=
  match idxOfJS u likes with
  | none => likes ++ [u]
  | some i => likes.eraseIdx i

/-- The body of the like response: new like count and resulting membership
flag (`isLiked` is whether the toggle just added the caller). -/
structure LikeResult where
  likes : Nat
  isLiked : Bool
deriving DecidableEq

/-- Embedding of `likePost`: 404 when absent; otherwise toggle the caller's
membership in `likes`, save, and report the new count and flag. -/
def likePost (store : List Post) (pid : Nat) (u : UserId) :
    Except ErrResp LikeResult × List Post :=
  match findPost store pid with
  | none => (Except.error notFoundPost, store)
  | some p =>
    let newLikes := toggleLikes p.likes u
    let p2 := { p with likes := newLikes }
    (Except.ok
      { likes := newLikes.length
        isLiked := idxOfJS u p.likes == none },
     saveReplace store p2)

/-- The validated request body of a post create/update. -/
structure PostBody where
  title : String
  content : String
  excerpt : String
  category : Nat
  status : String
deriving DecidableEq

/-- Modelled from the spec: `validatePost` lives in
`validation/postValidation`, which is not among the reviewed sources; the
spec only says create/update fail with `ValidationError` on schema
violation.  The schema check is modelled as requiring nonempty title and
content. -/
def validatePostB (b : PostBody) : Bool :=
  !(b.title == "") && !(b.content == "")

/-- Update `findByIdAndUpdate` with the validated body: overwrite the body-carried
fields, keep the rest. -/
def applyUpdate (p : Post) (b : PostBody) : Post :=
  { p with title := b.title, content := b.content, excerpt := b.excerpt,
           category := b.category, status := b.status }

/-- Embedding of `updatePost`: 404 when absent; 403 unless the caller is the
author or an admin; 400 when the body fails validation; otherwise update and
save. -/
def updatePost (store : List Post) (pid : Nat) (c : Caller) (b : PostBody) :
    Except ErrResp Post × List Post :=
  match findPost store pid with
  | none => (Except.error notFoundPost, store)
  | some p =>
    if !(p.author == c.id) && !(c.role == "admin") then
      (Except.error notAuthorizedUpdate, store)
    else if !(validatePostB b) then
      (Except.error (validationFailed "Invalid post data"), store)
    else
      let p2 := applyUpdate p b
      (Except.ok p2, saveReplace store p2)

/-- Embedding of `deletePost`: 404 when absent; 403 unless author or admin;
otherwise remove the document. -/
def deletePost (store : List Post) (pid : Nat) (c : Caller) :
    Except ErrResp Unit × List Post :=
  match findPost store pid with
  | none => (Except.error notFoundPost, store)
  | some p =>
    if !(p.author == c.id) && !(c.role == "admin") then
      (Except.error notAuthorizedDelete, store)
    else
      (Except.ok (), store.filter (fun q => !(q.id == pid)))

/-- Embedding of `addComment`: 404 when absent; otherwise append the comment
(with `cid` standing for the generated subdocument id) and save. -/
def addComment (store : List Post) (pid : Nat) (u : UserId) (content : String)
    (cid : Nat) : Except ErrResp (List Comment) × List Post :=
  match findPost store pid with
  | none => (Except.error notFoundPost, store)
  | some p =>
    let p2 := { p with comments := p.comments ++ [⟨cid, u, content⟩] }
    (Except.ok p2.comments, saveReplace store p2)

/-- Embedding of `deleteComment`: 404 when the post or the comment is
absent; 403 unless the caller is the comment's author or an admin; otherwise
remove exactly that comment and save. -/
def deleteComment (store : List Post) (pid cid : Nat) (c : Caller) :
    Except ErrResp Unit × List Post :=
  match findPost store pid with
  | none => (Except.error notFoundPost, store)
  | some p =>
    match p.comments.find? (fun cm => cm.id == cid) with
    | none => (Except.error commentNotFound, store)
    | some cm =>
      if !(cm.author == c.id) && !(c.role == "admin") then
        (Except.error notAuthorizedComment, store)
      else
        let p2 := { p with comments := p.comments.filter (fun x => !(x.id == cid)) }
        (Except.ok (), saveReplace store p2)

/-- Embedding of `createPost`: validation, category existence check, then
creation with the caller as author.  `cats` is the set of existing category
ids, `pid` the generated document id, `now` the creation timestamp; a new
post starts with zero views, no comments and no likes (the model defaults of
the Post schema, which is not among the reviewed sources; modelled from the
spec's data model). -/
def createPost (store : List Post) (cats : List Nat) (c : Caller) (b : PostBody)
    (pid now : Nat) : Except ErrResp Post × List Post :=
  if !(validatePostB b) then
    (Except.error (validationFailed "Invalid post data"), store)
  else if !(cats.contains b.category) then
    (Except.error categoryNotFound, store)
  else
    let p : Post :=
      { id := pid, title := b.title, content := b.content, excerpt := b.excerpt,
        author := c.id, category := b.category, status := b.status,
        views := 0, createdAt := now, comments := [], likes := [] }
    (Except.ok p, store ++ [p])

/- Part 4: auth endpoints. -/

/-- Model of `jwt.sign(\x7b id \x7d, secret, expiry)`: the token is a
function of the user id alone (secret and expiry are fixed deployment
constants). -/
structure Token where
  payloadId : Nat
deriving DecidableEq

def signToken (id : Nat) : Token := ⟨id⟩

/-- The success payload both auth endpoints construct: the token plus the
four public profile fields — and nothing else. -/
structure AuthPayload where
  token : Token
  id : Nat
  username : String
  email : String
  role : String
deriving DecidableEq

/-- Modelled from the spec: `validateRegister` lives in
`validation/authValidation`, not among the reviewed sources; the spec says
registration fails with `ValidationError` on schema violation.  Modelled as
requiring the three fields to be nonempty. -/
def validRegisterB (username email password : String) : Bool :=
  !(username == "") && !(email == "") && !(password == "")

/-- Modelled from the spec: `validateLogin`, as for `validRegisterB`. -/
def validLoginB (email password : String) : Bool :=
  !(email == "") && !(password == "")

/-- Model of `user.matchPassword` (bcrypt compare): the candidate matches
exactly when it equals the stored credential (an ideal, collision-free
hash). -/
def matchPassword (u : User) (candidate : String) : Bool :=
  u.password == candidate

/-- Lookup `User.findOne(\x7b email \x7d)`. -/
def findByEmail (db : List User) (email : String) : Option User :=
  db.find? (fun u => u.email == email)

/-- Embedding of `login`: validation, lookup by email, password compare; the
two credential failures return the same 401 error; success returns the token
and public fields. -/
def login (db : List User) (email password : String) :
    Except ErrResp AuthPayload :=
  if !(validLoginB email password) then
    Except.error (validationFailed "Invalid login data")
  else
    match findByEmail db email with
    | none => Except.error invalidCredentials
    | some u =>
      if matchPassword u password then
        Except.ok
          { token := signToken u.id, id := u.id, username := u.username,
            email := u.email, role := u.role }
      else Except.error invalidCredentials

/-- Embedding of `register`: validation, duplicate check on email or
username (`findOne` with `$or`), then creation (the fresh id is modelled as
the store length, the role as the schema default `user`), token issuance and
the public-fields response. -/
def register (db : List User) (username email password : String) :
    Except ErrResp AuthPayload × List User :=
  if !(validRegisterB username email password) then
    (Except.error (validationFailed "Invalid registration data"), db)
  else if db.any (fun u => u.email == email || u.username == username) then
    (Except.error userExists, db)
  else
    let u : User :=
      { id := db.length, username := username, email := email,
        password := password, role := "user" }
    (Except.ok
      { token := signToken u.id, id := u.id, username := u.username,
        email := u.email, role := u.role },
     db ++ [u])

/- Part 5: concrete fixtures used by witnesses and counterexamples. -/

/-- A published post with the given id, created at time `i`. -/
def mkPub (i : Nat) : Post :=
  { id := i, title := "t", content := "c", excerpt := "", author := 0,
    category := 0, status := "published", views := 0, createdAt := i,
    comments := [], likes := [] }

/-- Thirteen published posts. -/
def store13 : List Post := (List.range 13).map mkPub

/-- A published post titled `abc`. -/
def postAbc : Post := { mkPub 0 with title := "abc" }

/-- A draft post. -/
def postDraft : Post := { mkPub 5 with status := "draft" }

/-- A post with id 7 liked by users 0 and 1. -/
def postLiked : Post := { mkPub 7 with likes := [0, 1] }

/-- A stored user. -/
def userA : User :=
  { id := 0, username := "a", email := "ae", password := "pw", role := "user" }

/-- A valid post body. -/
def bodyOk : PostBody :=
  { title := "t", content := "c", excerpt := "", category := 0, status := "draft" }

/-- An invalid post body (empty title and content). -/
def bodyBad : PostBody :=
  { title := "", content := "", excerpt := "", category := 0, status := "draft" }

/-- The likes invariant over a store: every post's likes array is
duplicate-free. -/
def LikesInv (store : List Post) : Prop :=
  ∀ p ∈ store, p.likes.Nodup

/- Part 6: helper lemmas. -/

/-- A `none` result of `indexOf` means the element is absent. -/
theorem idxOfJS_eq_none {u : UserId} {l : List UserId} :
    idxOfJS u l = none ↔ u ∉ l := by
  induction l with
  | nil => simp [idxOfJS]
  | cons v vs ih =>
    by_cases h : v = u
    · subst h; simp [idxOfJS]
    · simp only [idxOfJS, beq_iff_eq, h, if_false, Option.map_eq_none', ih,
        List.mem_cons, not_or]
      constructor
      · intro hm; exact ⟨fun he => h he.symm, hm⟩
      · intro hm; exact hm.2

/-- The toggle is an erase of the first occurrence when present, an append
when absent. -/
theorem toggleLikes_eq (l : List UserId) (u : UserId) :
    toggleLikes l u = if u ∈ l then l.erase u else l ++ [u] := by
  induction l with
  | nil => simp [toggleLikes, idxOfJS]
  | cons v vs ih =>
    by_cases h : v = u
    · subst h
      simp [toggleLikes, idxOfJS, List.eraseIdx, List.erase_cons_head]
    · by_cases hm : u ∈ vs
      · have hne : ¬idxOfJS u vs = none := by
          rw [idxOfJS_eq_none]; exact fun hn => hn hm
        obtain ⟨i, hi⟩ := Option.ne_none_iff_exists'.mp hne
        have hcons : idxOfJS u (v :: vs) = some (i + 1) := by
          simp [idxOfJS, beq_iff_eq, h, hi]
        have htail : vs.eraseIdx i = vs.erase u := by
          have h1 : toggleLikes vs u = vs.eraseIdx i := by
            simp [toggleLikes, hi]
          rw [ih] at h1; simpa [hm] using h1.symm
        have hvne : ¬(v == u) = true := by simp [h]
        simp only [toggleLikes, hcons, List.eraseIdx_cons_succ, htail,
          List.mem_cons, hm, or_true, if_true, List.erase_cons_tail hvne]
      · have hnone : idxOfJS u (v :: vs) = none := by
          rw [idxOfJS_eq_none]
          simp only [List.mem_cons, not_or]
          exact ⟨fun he => h he.symm, hm⟩
        have hnm : u ∉ v :: vs := idxOfJS_eq_none.mp hnone
        simp [toggleLikes, hnone, hnm]

theorem toggleLikes_of_mem {l : List UserId} {u : UserId} (h : u ∈ l) :
    toggleLikes l u = l.erase u := by
  rw [toggleLikes_eq]; simp [h]

theorem toggleLikes_of_not_mem {l : List UserId} {u : UserId} (h : u ∉ l) :
    toggleLikes l u = l ++ [u] := by
  rw [toggleLikes_eq]; simp [h]

/-- The toggle preserves freedom from duplicates. -/
theorem toggleLikes_nodup {l : List UserId} {u : UserId} (d : l.Nodup) :
    (toggleLikes l u).Nodup := by
  rw [toggleLikes_eq]
  by_cases h : u ∈ l
  · simpa [h] using d.erase u
  · simp only [h, if_false]
    rw [(List.perm_append_singleton u l).nodup_iff, List.nodup_cons]
    exact ⟨h, d⟩

/-- Toggling twice permutes the likes back to the original list. -/
theorem toggleLikes_twice_perm {l : List UserId} {u : UserId} (d : l.Nodup) :
    (toggleLikes (toggleLikes l u) u).Perm l := by
  by_cases h : u ∈ l
  · rw [toggleLikes_of_mem h]
    have h2 : u ∉ l.erase u := by
      intro hmem
      exact ((d.mem_erase_iff).mp hmem).1 rfl
    rw [toggleLikes_of_not_mem h2]
    exact (List.perm_append_singleton u _).trans (List.perm_cons_erase h).symm
  · rw [toggleLikes_of_not_mem h]
    have h2 : u ∈ l ++ [u] := by simp
    rw [toggleLikes_of_mem h2, List.erase_append_right _ h]
    simp

/-- A single toggle flips the caller's membership. -/
theorem toggleLikes_mem_flip {l : List UserId} {u : UserId} (d : l.Nodup) :
    u ∈ toggleLikes l u ↔ u ∉ l := by
  by_cases h : u ∈ l
  · rw [toggleLikes_of_mem h]
    simp [d.mem_erase_iff, h]
  · rw [toggleLikes_of_not_mem h]
    simp [h]

/-- Saving a document leaves lookup finding exactly the saved version. -/
theorem findPost_saveReplace {store : List Post} {p p2 : Post} {pid : Nat}
    (hf : findPost store pid = some p) (hid : p2.id = p.id) :
    findPost (saveReplace store p2) pid = some p2 := by
  have hpid : p.id = pid := by
    have := List.find?_some hf
    simpa using this
  induction store with
  | nil => simp [findPost] at hf
  | cons a as ih =>
    by_cases h : a.id = pid
    · have hpos : (fun q : Post => q.id == pid) a = true := by simp [h]
      have he : List.find? (fun q : Post => q.id == pid) (a :: as) = some a :=
        List.find?_cons_of_pos as hpos
      rw [findPost] at hf
      rw [he] at hf
      have hap : a = p := by injection hf
      subst hap
      have h1 : (a.id == p2.id) = true := by simp [hid]
      have h2 : ((fun q : Post => q.id == pid) p2) = true := by simp [hid, hpid]
      simp only [findPost, saveReplace, List.map_cons, h1, if_true]
      exact List.find?_cons_of_pos _ h2
    · have hneg : ¬((fun q : Post => q.id == pid) a = true) := by simp [h]
      have he : List.find? (fun q : Post => q.id == pid) (a :: as)
          = List.find? (fun q : Post => q.id == pid) as :=
        List.find?_cons_of_neg as hneg
      rw [findPost] at hf
      rw [he] at hf
      have ha2 : (a.id == p2.id) = false := by
        simp only [beq_eq_false_iff_ne, ne_eq, hid, hpid]
        exact h
      have hstep := ih hf
      simp only [findPost, saveReplace, List.map_cons, ha2, Bool.false_eq_true,
        if_false]
      have he2 : List.find? (fun q : Post => q.id == pid)
            (a :: List.map (fun q => if q.id == p2.id then p2 else q) as)
          = List.find? (fun q : Post => q.id == pid)
            (List.map (fun q => if q.id == p2.id then p2 else q) as) :=
        List.find?_cons_of_neg _ hneg
      rw [he2]
      exact hstep

/-- Saving a post whose likes are duplicate-free preserves the invariant. -/
theorem LikesInv_saveReplace {store : List Post} {p : Post}
    (h : LikesInv store) (hp : p.likes.Nodup) : LikesInv (saveReplace store p) := by
  intro q hq
  rcases List.mem_map.mp hq with ⟨r, hr, hrq⟩
  subst hrq
  by_cases hc : (r.id == p.id) = true
  · simpa [hc] using hp
  · simpa [hc] using h r hr

theorem mem_insertByCreatedDesc {p x : Post} {l : List Post} :
    x ∈ insertByCreatedDesc p l ↔ x = p ∨ x ∈ l := by
  induction l with
  | nil => simp [insertByCreatedDesc]
  | cons q qs ih =>
    by_cases h : q.createdAt < p.createdAt
    · simp [insertByCreatedDesc, h]
    · simp only [insertByCreatedDesc, h, if_false, List.mem_cons, ih]
      tauto

theorem sortByCreatedDesc_cons (q : Post) (qs : List Post) :
    sortByCreatedDesc (q :: qs) = insertByCreatedDesc q (sortByCreatedDesc qs) := rfl

/-- Sorting preserves membership. -/
theorem mem_sortByCreatedDesc {x : Post} {l : List Post} :
    x ∈ sortByCreatedDesc l ↔ x ∈ l := by
  induction l with
  | nil => simp [sortByCreatedDesc]
  | cons q qs ih =>
    rw [sortByCreatedDesc_cons, mem_insertByCreatedDesc, ih]
    simp

/-- Every post the listing returns satisfies the Mongo filter it was built
from. -/
theorem matchesQuery_of_mem_getPosts {store : List Post} {page limit : Nat}
    {q : Query} {p : Post} (h : p ∈ (getPosts store page limit q).data) :
    matchesQuery q p = true := by
  have h1 : p ∈ ((sortByCreatedDesc (store.filter fun p => matchesQuery q p)).drop
      ((page - 1) * limit)).take limit := h
  exact List.of_mem_filter
    (mem_sortByCreatedDesc.mp (List.mem_of_mem_drop (List.mem_of_mem_take h1)))

/-- With no status parameter the filter pins status to `published`. -/
theorem status_of_matchesQuery_none {q : Query} {p : Post}
    (hq : q.status = none) (h : matchesQuery q p = true) :
    p.status = "published" := by
  unfold matchesQuery at h
  rw [hq] at h
  simp only [Bool.and_eq_true, beq_iff_eq] at h
  exact h.2

/-- With a truthy status parameter the filter pins status to it. -/
theorem status_of_matchesQuery_some {q : Query} {p : Post} {s : String}
    (hq : q.status = some s) (hs : s ≠ "") (h : matchesQuery q p = true) :
    p.status = s := by
  unfold matchesQuery at h
  rw [hq] at h
  have hs2 : (s == "") = false := by simpa using hs
  simp only [hs2, Bool.false_eq_true, if_false, Bool.and_eq_true, beq_iff_eq] at h
  exact h.2

/-- With a truthy search parameter the filter requires the search clause. -/
theorem search_of_matchesQuery {q : Query} {p : Post} {s : String}
    (hq : q.search = some s) (hs : s ≠ "") (h : matchesQuery q p = true) :
    searchClause s p = true := by
  unfold matchesQuery at h
  rw [hq] at h
  have hs2 : (s == "") = false := by simpa using hs
  simp only [hs2, Bool.false_eq_true, if_false, Bool.and_eq_true] at h
  exact h.1.1

/-- The natural-number ceiling division the controller computes is the real
ceiling of the rational quotient. -/
theorem ceilDivNat_eq_ceil (a b : Nat) (hb : 0 < b) :
    ceilDivNat a b = ⌈(a : ℚ) / (b : ℚ)⌉₊ := by
  have hbq : (0 : ℚ) < (b : ℚ) := by exact_mod_cast hb
  have h1 : ceilDivNat a b = a ⌈/⌉ b := (Nat.ceilDiv_eq_add_pred_div a b).symm
  rw [h1]
  apply le_antisymm
  · rw [ceilDiv_le_iff_le_mul hb]
    have h2 : (a : ℚ) / b ≤ (⌈(a : ℚ) / b⌉₊ : ℚ) := Nat.le_ceil _
    have h3 : (a : ℚ) ≤ (⌈(a : ℚ) / b⌉₊ : ℚ) * b := (div_le_iff₀ hbq).mp h2
    have h4 : (a : ℚ) ≤ ((b * ⌈(a : ℚ) / b⌉₊ : ℕ) : ℚ) := by push_cast; linarith
    exact_mod_cast h4
  · rw [Nat.ceil_le]
    have h5 : (a : ℕ) ≤ b • (a ⌈/⌉ b) := le_smul_ceilDiv hb
    rw [smul_eq_mul] at h5
    rw [div_le_iff₀ hbq]
    have h6 : (a : ℚ) ≤ ((b * (a ⌈/⌉ b) : ℕ) : ℚ) := by exact_mod_cast h5
    push_cast at h6
    linarith

/-- A metacharacter-free pattern compiles to literal tokens only. -/
theorem regexToks_of_no_meta {l : List Char}
    (h : ∀ c ∈ l, isRegexMeta c = false) : regexToks l = l.map RTok.lit := by
  unfold regexToks
  apply List.map_congr_left
  intro c hc
  have hdot : ¬c = '.' := by
    intro he
    have hm := h c hc
    rw [he] at hm
    simp [isRegexMeta] at hm
  simp [hdot]

theorem matchToksPre_lit (n : List Char) :
    ∀ h : List Char, matchToksPre (n.map RTok.lit) h = chPre n h := by
  induction n with
  | nil => intro h; rfl
  | cons a as ih =>
    intro h
    cases h with
    | nil => rfl
    | cons c cs => simp [matchToksPre, chPre, tokMatches, ih]

theorem matchToksAt_lit (n h : List Char) :
    matchToksAt (n.map RTok.lit) h = chSubAt n h := by
  induction h with
  | nil => simp [matchToksAt, chSubAt, matchToksPre_lit]
  | cons c cs ih => simp [matchToksAt, chSubAt, matchToksPre_lit, ih]

/-- On metacharacter-free patterns the regex matcher is exactly the plain
case-insensitive substring test. -/
theorem regexMatchCI_eq_sub {s : String} (t : String)
    (h : ∀ c ∈ s.data, isRegexMeta c = false) :
    regexMatchCI s t = containsSubCI s t := by
  unfold regexMatchCI containsSubCI
  rw [regexToks_of_no_meta h, matchToksAt_lit]

/- Part 7: the claims. -/

/-- C1: on a duplicate-free likes set, toggling twice restores the set's
contents and count; a single toggle removes the caller's reference if
present, else appends it, flipping membership.  The last conjunct lifts the
round trip to `likePost` on the store. -/
theorem toggleLike_double_restores (likes : List UserId) (u : UserId)
    (hnd : likes.Nodup) :
    (toggleLikes (toggleLikes likes u) u).Perm likes
    ∧ (toggleLikes (toggleLikes likes u) u).length = likes.length
    ∧ (∀ v, v ∈ toggleLikes (toggleLikes likes u) u ↔ v ∈ likes)
    ∧ (u ∈ likes → toggleLikes likes u = likes.erase u)
    ∧ (u ∉ likes → toggleLikes likes u = likes ++ [u])
    ∧ (u ∈ toggleLikes likes u ↔ u ∉ likes)
    ∧ (∀ (store : List Post) (pid : Nat) (p : Post),
        findPost store pid = some p → p.likes = likes →
        ∃ p2, findPost (likePost (likePost store pid u).2 pid u).2 pid = some p2
          ∧ p2.likes.Perm likes ∧ p2.likes.length = likes.length) := by
  have hperm := toggleLikes_twice_perm (u := u) hnd
  refine ⟨hperm, hperm.length_eq, fun v => hperm.mem_iff,
    toggleLikes_of_mem, toggleLikes_of_not_mem, toggleLikes_mem_flip hnd, ?_⟩
  intro store pid p hf hl
  have h2 : (likePost store pid u).2
      = saveReplace store { p with likes := toggleLikes p.likes u } := by
    simp [likePost, hf]
  have hf2 : findPost (likePost store pid u).2 pid
      = some { p with likes := toggleLikes p.likes u } := by
    rw [h2]; exact findPost_saveReplace hf rfl
  set S2 := (likePost store pid u).2 with hS2
  have h3 : (likePost S2 pid u).2
      = saveReplace S2 { p with likes := toggleLikes (toggleLikes p.likes u) u } := by
    simp [likePost, hf2]
  refine ⟨{ p with likes := toggleLikes (toggleLikes p.likes u) u }, ?_, ?_, ?_⟩
  · rw [h3]; exact findPost_saveReplace hf2 rfl
  · show (toggleLikes (toggleLikes p.likes u) u).Perm likes
    rw [hl]; exact hperm
  · show (toggleLikes (toggleLikes p.likes u) u).length = likes.length
    rw [hl]; exact hperm.length_eq

/-- Witness for C1 at a two-element likes set and a concrete store. -/
theorem toggleLike_double_restores_witness :
    (toggleLikes (toggleLikes [0, 1] 0) 0).Perm [0, 1]
    ∧ (∃ p2, findPost (likePost (likePost [postLiked] 7 0).2 7 0).2 7 = some p2
        ∧ p2.likes.Perm [0, 1] ∧ p2.likes.length = ([0, 1] : List UserId).length) :=
  ⟨(toggleLike_double_restores [0, 1] 0 (by decide)).1,
   (toggleLike_double_restores [0, 1] 0 (by decide)).2.2.2.2.2.2
     [postLiked] 7 postLiked (by decide) (by decide)⟩

/-- C2: the pagination metadata of every listing is computed from a
separate count over the same filter: total pages is the ceiling of
total over limit, `hasNext` holds exactly when the page is below that
ceiling, `hasPrev` exactly when the page exceeds 1; with 13 matching
published posts and limit 6, pages 1 and 2 carry 6 items with `hasNext`,
page 3 carries 1 item without it. -/
theorem getPosts_pagination_spec :
    (∀ (store : List Post) (page limit : Nat) (q : Query), 0 < limit →
      (getPosts store page limit q).total
          = (store.filter fun p => matchesQuery q p).length
      ∧ (getPosts store page limit q).pagination.total
          = ⌈((store.filter fun p => matchesQuery q p).length : ℚ) / (limit : ℚ)⌉₊
      ∧ ((getPosts store page limit q).pagination.hasNext = true
          ↔ page < ⌈((store.filter fun p => matchesQuery q p).length : ℚ) / (limit : ℚ)⌉₊)
      ∧ ((getPosts store page limit q).pagination.hasPrev = true ↔ 1 < page))
    ∧ ((getPosts store13 1 6 {}).data.length = 6
      ∧ (getPosts store13 1 6 {}).pagination.hasNext = true
      ∧ (getPosts store13 2 6 {}).data.length = 6
      ∧ (getPosts store13 2 6 {}).pagination.hasNext = true
      ∧ (getPosts store13 3 6 {}).data.length = 1
      ∧ (getPosts store13 3 6 {}).pagination.hasNext = false
      ∧ (getPosts store13 3 6 {}).pagination.hasPrev = true
      ∧ (getPosts store13 3 6 {}).total = 13) := by
  constructor
  · intro store page limit q hl
    refine ⟨rfl, ?_, ?_, ?_⟩
    · show ceilDivNat (store.filter fun p => matchesQuery q p).length limit = _
      exact ceilDivNat_eq_ceil _ _ hl
    · show decide (page < ceilDivNat (store.filter fun p => matchesQuery q p).length limit)
          = true ↔ _
      rw [decide_eq_true_eq, ceilDivNat_eq_ceil _ _ hl]
    · show decide (1 < page) = true ↔ 1 < page
      rw [decide_eq_true_eq]
  · decide

/-- Witness for C2 at the thirteen-post store, page 3, limit 6. -/
theorem getPosts_pagination_spec_witness :
    (getPosts store13 3 6 {}).total
        = (store13.filter fun p => matchesQuery {} p).length
    ∧ (getPosts store13 3 6 {}).pagination.total
        = ⌈((store13.filter fun p => matchesQuery {} p).length : ℚ) / (6 : ℚ)⌉₊
    ∧ ((getPosts store13 3 6 {}).pagination.hasNext = true
        ↔ 3 < ⌈((store13.filter fun p => matchesQuery {} p).length : ℚ) / (6 : ℚ)⌉₊)
    ∧ ((getPosts store13 3 6 {}).pagination.hasPrev = true ↔ 1 < 3) :=
  getPosts_pagination_spec.1 store13 3 6 {} (by decide)

/-- C3 counterexample: with search string `a.c` the listing returns a post
whose title and content do not contain `a.c` as a substring — the search
string is interpreted as a regular expression (`.` matches any character),
not as a plain substring. -/
theorem search_not_plain_substring :
    (getPosts [postAbc] 1 10 { search := some "a.c" }).data = [postAbc]
    ∧ containsSubCI "a.c" postAbc.title = false
    ∧ containsSubCI "a.c" postAbc.content = false := by decide

/-- C3 (amended): the search parameter is matched as a case-insensitive
regex over title OR content; for every search string free of regex
metacharacters this coincides with the case-insensitive substring match the
claim describes, and every post a search listing returns then satisfies the
substring condition. -/
theorem search_substring_when_no_meta (s : String)
    (hs : s.data.all (fun c => !isRegexMeta c) = true) :
    (∀ p : Post, searchClause s p
        = (containsSubCI s p.title || containsSubCI s p.content))
    ∧ (∀ (store : List Post) (page limit : Nat) (q : Query) (p : Post),
        q.search = some s → s ≠ "" → p ∈ (getPosts store page limit q).data →
        (containsSubCI s p.title || containsSubCI s p.content) = true) := by
  have hmeta : ∀ c ∈ s.data, isRegexMeta c = false := by
    intro c hc
    have hall := (List.all_eq_true.mp hs) c hc
    simpa using hall
  constructor
  · intro p
    unfold searchClause
    rw [regexMatchCI_eq_sub _ hmeta, regexMatchCI_eq_sub _ hmeta]
  · intro store page limit q p hq hsne hm
    have h1 := search_of_matchesQuery hq hsne (matchesQuery_of_mem_getPosts hm)
    unfold searchClause at h1
    rw [regexMatchCI_eq_sub _ hmeta, regexMatchCI_eq_sub _ hmeta] at h1
    exact h1

/-- Witness for the amended C3 on the metacharacter-free search string
`b`. -/
theorem search_substring_when_no_meta_witness :
    searchClause "b" postAbc
      = (containsSubCI "b" postAbc.title || containsSubCI "b" postAbc.content)
    ∧ (containsSubCI "b" postAbc.title || containsSubCI "b" postAbc.content)
        = true :=
  ⟨(search_substring_when_no_meta "b" (by decide)).1 postAbc,
   (search_substring_when_no_meta "b" (by decide)).2 [postAbc] 1 10
     { search := some "b" } postAbc rfl (by decide) (by decide)⟩

/-- C5: with no status parameter every listed post is `published`; with an
explicit status parameter every listed post carries exactly that status. -/
theorem listPosts_status_filter :
    (∀ (store : List Post) (page limit : Nat) (q : Query) (p : Post),
        q.status = none → p ∈ (getPosts store page limit q).data →
        p.status = "published")
    ∧ (∀ (store : List Post) (page limit : Nat) (q : Query) (s : String)
        (p : Post),
        q.status = some s → s ≠ "" → p ∈ (getPosts store page limit q).data →
        p.status = s) := by
  constructor
  · intro store page limit q p hq hm
    exact status_of_matchesQuery_none hq (matchesQuery_of_mem_getPosts hm)
  · intro store page limit q s p hq hs hm
    exact status_of_matchesQuery_some hq hs (matchesQuery_of_mem_getPosts hm)

/-- Witness for C5 on singleton stores holding a published and a draft
post. -/
theorem listPosts_status_filter_witness :
    (mkPub 0).status = "published" ∧ postDraft.status = "draft" :=
  ⟨listPosts_status_filter.1 [mkPub 0] 1 10 {} (mkPub 0) rfl (by decide),
   listPosts_status_filter.2 [postDraft] 1 10 { status := some "draft" }
     "draft" postDraft rfl (by decide) (by decide)⟩

/-- C4: for well-formed credentials, a login whose email matches no stored
user and a login whose email matches but whose password does not both
return the one `Invalid credentials` 401 error — the very same value, so
nothing in the response distinguishes the two causes. -/
theorem login_failures_identical :
    ∀ (db : List User) (email password : String),
      validLoginB email password = true →
      (findByEmail db email = none →
        login db email password = Except.error invalidCredentials)
      ∧ (∀ u, findByEmail db email = some u → matchPassword u password = false →
        login db email password = Except.error invalidCredentials) := by
  intro db email password hv
  constructor
  · intro h; simp [login, hv, h]
  · intro u h hm; simp [login, hv, h, hm]

/-- Witness for C4: unknown email versus wrong password against a
one-user store. -/
theorem login_failures_identical_witness :
    login [userA] "zz" "pw" = Except.error invalidCredentials
    ∧ login [userA] "ae" "bad" = Except.error invalidCredentials :=
  ⟨(login_failures_identical [userA] "zz" "pw" (by decide)).1 (by decide),
   (login_failures_identical [userA] "ae" "bad" (by decide)).2 userA
     (by decide) (by decide)⟩

/-- C6: fetching an absent post returns 404 with the store untouched;
fetching a present post returns it with `views` incremented by exactly one,
writes back only that increment (the other fields and documents of the
store are untouched), and keeps every other post in the store. -/
theorem getPost_increments_views :
    ∀ (store : List Post) (pid : Nat),
      (findPost store pid = none →
        getPost store pid = (Except.error notFoundPost, store))
      ∧ (∀ p, findPost store pid = some p →
          (getPost store pid).1 = Except.ok { p with views := p.views + 1 }
          ∧ (getPost store pid).2
              = store.map
                  (fun q => if q.id == pid then { p with views := p.views + 1 } else q)
          ∧ (∀ q ∈ store, (q.id == pid) = false → q ∈ (getPost store pid).2)) := by
  intro store pid
  constructor
  · intro h; simp [getPost, h]
  · intro p hf
    have hpid : p.id = pid := by simpa using List.find?_some hf
    refine ⟨by simp [getPost, hf], ?_, ?_⟩
    · simp [getPost, hf, saveReplace, hpid]
    · intro q hq hne
      have h2 : (fun r : Post =>
            if r.id == ({ p with views := p.views + 1 } : Post).id
            then ({ p with views := p.views + 1 } : Post) else r) q = q := by
        simp only [hpid, hne, Bool.false_eq_true, if_false]
      have h3 : q ∈ saveReplace store { p with views := p.views + 1 } :=
        h2 ▸ List.mem_map_of_mem _ hq
      simpa [getPost, hf] using h3

/-- Witness for C6: a missing id and a present id on a one-post store. -/
theorem getPost_increments_views_witness :
    getPost [mkPub 0] 9 = (Except.error notFoundPost, [mkPub 0])
    ∧ (getPost [mkPub 0] 0).1
        = Except.ok { mkPub 0 with views := (mkPub 0).views + 1 } :=
  ⟨(getPost_increments_views [mkPub 0] 9).1 (by decide),
   ((getPost_increments_views [mkPub 0] 0).2 (mkPub 0) (by decide)).1⟩

/-- C7: every reachable likes set is duplicate-free — the toggle preserves
freedom from duplicates, every other endpoint leaves every stored likes set
equal to one already in the store (or empty, at creation), so the invariant
is preserved by every operation. -/
theorem likes_nodup_invariant :
    (∀ (l : List UserId) (u : UserId), l.Nodup → (toggleLikes l u).Nodup)
    ∧ (∀ store pid u, LikesInv store → LikesInv (likePost store pid u).2)
    ∧ (∀ store pid, LikesInv store → LikesInv (getPost store pid).2)
    ∧ (∀ store pid u ct cid, LikesInv store →
        LikesInv (addComment store pid u ct cid).2)
    ∧ (∀ store pid cid c, LikesInv store →
        LikesInv (deleteComment store pid cid c).2)
    ∧ (∀ store pid c b, LikesInv store → LikesInv (updatePost store pid c b).2)
    ∧ (∀ store pid c, LikesInv store → LikesInv (deletePost store pid c).2)
    ∧ (∀ store cats c b pid now, LikesInv store →
        LikesInv (createPost store cats c b pid now).2) := by
  refine ⟨fun l u d => toggleLikes_nodup d, ?_, ?_, ?_, ?_, ?_, ?_, ?_⟩
  · intro store pid u h
    cases hf : findPost store pid with
    | none => simpa [likePost, hf] using h
    | some p =>
      have hp : p ∈ store := List.mem_of_find?_eq_some hf
      have : LikesInv (saveReplace store { p with likes := toggleLikes p.likes u }) :=
        LikesInv_saveReplace h (toggleLikes_nodup (h p hp))
      simpa [likePost, hf] using this
  · intro store pid h
    cases hf : findPost store pid with
    | none => simpa [getPost, hf] using h
    | some p =>
      have hp : p ∈ store := List.mem_of_find?_eq_some hf
      have : LikesInv (saveReplace store { p with views := p.views + 1 }) :=
        LikesInv_saveReplace h (h p hp)
      simpa [getPost, hf] using this
  · intro store pid u ct cid h
    cases hf : findPost store pid with
    | none => simpa [addComment, hf] using h
    | some p =>
      have hp : p ∈ store := List.mem_of_find?_eq_some hf
      have : LikesInv (saveReplace store
          { p with comments := p.comments ++ [⟨cid, u, ct⟩] }) :=
        LikesInv_saveReplace h (h p hp)
      simpa [addComment, hf] using this
  · intro store pid cid c h
    cases hf : findPost store pid with
    | none => simpa [deleteComment, hf] using h
    | some p =>
      cases hc : p.comments.find? (fun cm => cm.id == cid) with
      | none => simpa [deleteComment, hf, hc] using h
      | some cm =>
        have hp : p ∈ store := List.mem_of_find?_eq_some hf
        by_cases hown : (!(cm.author == c.id) && !(c.role == "admin")) = true
        · simpa [deleteComment, hf, hc, hown] using h
        · have : LikesInv (saveReplace store
              { p with comments := p.comments.filter (fun x => !(x.id == cid)) }) :=
            LikesInv_saveReplace h (h p hp)
          simpa [deleteComment, hf, hc, hown] using this
  · intro store pid c b h
    cases hf : findPost store pid with
    | none => simpa [updatePost, hf] using h
    | some p =>
      have hp : p ∈ store := List.mem_of_find?_eq_some hf
      by_cases hown : (!(p.author == c.id) && !(c.role == "admin")) = true
      · simpa [updatePost, hf, hown] using h
      · by_cases hvb : validatePostB b = true
        · have : LikesInv (saveReplace store (applyUpdate p b)) :=
            LikesInv_saveReplace h (h p hp)
          simpa [updatePost, hf, hown, hvb] using this
        · simpa [updatePost, hf, hown, hvb] using h
  · intro store pid c h
    cases hf : findPost store pid with
    | none => simpa [deletePost, hf] using h
    | some p =>
      by_cases hown : (!(p.author == c.id) && !(c.role == "admin")) = true
      · simpa [deletePost, hf, hown] using h
      · have : LikesInv (store.filter (fun q => !(q.id == pid))) := by
          intro q hq
          exact h q (List.mem_of_mem_filter hq)
        simpa [deletePost, hf, hown] using this
  · intro store cats c b pid now h
    by_cases hvb : validatePostB b = true
    · by_cases hcat : b.category ∈ cats
      · have : LikesInv (store ++
            [{ id := pid, title := b.title, content := b.content,
               excerpt := b.excerpt, author := c.id, category := b.category,
               status := b.status, views := 0, createdAt := now,
               comments := [], likes := [] }]) := by
          intro q hq
          rcases List.mem_append.mp hq with hq1 | hq1
          · exact h q hq1
          · rcases List.mem_singleton.mp hq1 with rfl
            exact List.nodup_nil
        simpa [createPost, hvb, hcat] using this
      · simpa [createPost, hvb, hcat] using h
    · simpa [createPost, hvb] using h

/-- Witness for C7: a toggle on a two-element set and a like on a concrete
store. -/
theorem likes_nodup_invariant_witness :
    (toggleLikes [0, 1] 0).Nodup ∧ LikesInv (likePost [postLiked] 7 0).2 :=
  ⟨likes_nodup_invariant.1 [0, 1] 0 (by decide),
   likes_nodup_invariant.2.1 [postLiked] 7 0
     (by intro p hp; rw [List.mem_singleton.mp hp]; decide)⟩

/-- C8: registration aborts with the duplicate-user 400 error whenever some
stored user already carries the email or the username, leaving the store
unchanged; in particular, after a successful registration a second
registration with the same email fails that way. -/
theorem register_conflict_rejected :
    ∀ (db : List User) (un em pw : String),
      validRegisterB un em pw = true →
      (db.any (fun u => u.email == em || u.username == un) = true →
        register db un em pw = (Except.error userExists, db))
      ∧ (∀ un2 pw2, db.any (fun u => u.email == em || u.username == un) = false →
          validRegisterB un2 em pw2 = true →
          register ((register db un em pw).2) un2 em pw2
            = (Except.error userExists, (register db un em pw).2)) := by
  intro db un em pw hv
  constructor
  · intro hc; simp [register, hv, hc]
  · intro un2 pw2 hc hv2
    have h2 : (register db un em pw).2
        = db ++ [{ id := db.length, username := un, email := em,
                   password := pw, role := "user" }] := by
      simp [register, hv, hc]
    rw [h2]
    have hconf : (db ++ [({ id := db.length, username := un, email := em,
                            password := pw, role := "user" } : User)]).any
        (fun u => u.email == em || u.username == un2) = true := by
      simp [List.any_append]
    simp [register, hv2, hconf]

/-- Witness for C8: a clashing registration against a one-user store, and a
repeated email registration from empty. -/
theorem register_conflict_rejected_witness :
    register [userA] "z" "ae" "x" = (Except.error userExists, [userA])
    ∧ register ((register [] "a" "e" "p").2) "b" "e" "q"
        = (Except.error userExists, (register [] "a" "e" "p").2) :=
  ⟨(register_conflict_rejected [userA] "z" "ae" "x" (by decide)).1 (by decide),
   (register_conflict_rejected [] "a" "e" "p" (by decide)).2 "b" "q"
     (by decide) (by decide)⟩

/-- C9: no success response of register or login carries the password:
the register response is unchanged when the submitted password changes, and
each success payload is exactly the token plus the four public profile
fields id, username, email and role. -/
theorem auth_success_no_password :
    ∀ (db : List User) (un em p1 p2 : String),
      validRegisterB un em p1 = true → validRegisterB un em p2 = true →
      ((register db un em p1).1 = (register db un em p2).1)
      ∧ (∀ u pw, validLoginB em pw = true → findByEmail db em = some u →
          matchPassword u pw = true →
          login db em pw = Except.ok
            { token := signToken u.id, id := u.id, username := u.username,
              email := u.email, role := u.role })
      ∧ (db.any (fun u => u.email == em || u.username == un) = false →
          (register db un em p1).1 = Except.ok
            { token := signToken db.length, id := db.length, username := un,
              email := em, role := "user" }) := by
  intro db un em p1 p2 hv1 hv2
  refine ⟨?_, ?_, ?_⟩
  · cases hany : db.any (fun u => u.email == em || u.username == un) with
    | true => simp [register, hv1, hv2, hany]
    | false => simp [register, hv1, hv2, hany]
  · intro u pw hlv hf hm
    simp [login, hlv, hf, hm]
  · intro hc
    simp [register, hv1, hc]

/-- Witness for C9: password-independence of a fresh registration, a
successful login payload, and a fresh registration payload. -/
theorem auth_success_no_password_witness :
    ((register [] "a" "e" "x").1 = (register [] "a" "e" "y").1)
    ∧ login [userA] "ae" "pw" = Except.ok
        { token := signToken userA.id, id := userA.id,
          username := userA.username, email := userA.email, role := userA.role }
    ∧ (register [] "a" "e" "x").1 = Except.ok
        { token := signToken 0, id := 0, username := "a", email := "e",
          role := "user" } :=
  ⟨(auth_success_no_password [] "a" "e" "x" "y" (by decide) (by decide)).1,
   (auth_success_no_password [userA] "z" "ae" "x" "y" (by decide)
     (by decide)).2.1 userA "pw" (by decide) (by decide) (by decide),
   (auth_success_no_password [] "a" "e" "x" "y" (by decide) (by decide)).2.2
     (by decide)⟩

/-- C10: `updatePost` reports errors in the order not-found, forbidden,
validation: an absent id yields 404; a caller who is neither the author nor
an admin yields 403 whatever the body; an authorized caller with an invalid
body yields 400; each error leaves the store unchanged. -/
theorem updatePost_error_order :
    ∀ (store : List Post) (pid : Nat) (c : Caller) (b : PostBody),
      (findPost store pid = none →
        updatePost store pid c b = (Except.error notFoundPost, store))
      ∧ (∀ p, findPost store pid = some p → p.author ≠ c.id →
          c.role ≠ "admin" →
          updatePost store pid c b = (Except.error notAuthorizedUpdate, store))
      ∧ (∀ p, findPost store pid = some p →
          (p.author = c.id ∨ c.role = "admin") → validatePostB b = false →
          updatePost store pid c b
            = (Except.error (validationFailed "Invalid post data"), store)) := by
  intro store pid c b
  refine ⟨?_, ?_, ?_⟩
  · intro h; simp [updatePost, h]
  · intro p hf h1 h2
    simp [updatePost, hf, h1, h2]
  · intro p hf h1 h2
    rcases h1 with h1 | h1
    · simp [updatePost, hf, h1, h2]
    · simp [updatePost, hf, h1, h2]

/-- Witness for C10: the three error outcomes at concrete inputs — in
particular the 403 outcome on a perfectly valid body. -/
theorem updatePost_error_order_witness :
    updatePost [mkPub 0] 9 ⟨1, "user"⟩ bodyOk
        = (Except.error notFoundPost, [mkPub 0])
    ∧ updatePost [mkPub 0] 0 ⟨1, "user"⟩ bodyOk
        = (Except.error notAuthorizedUpdate, [mkPub 0])
    ∧ updatePost [mkPub 0] 0 ⟨0, "user"⟩ bodyBad
        = (Except.error (validationFailed "Invalid post data"), [mkPub 0]) :=
  ⟨(updatePost_error_order [mkPub 0] 9 ⟨1, "user"⟩ bodyOk).1 (by decide),
   (updatePost_error_order [mkPub 0] 0 ⟨1, "user"⟩ bodyOk).2.1 (mkPub 0)
     (by decide) (by decide) (by decide),
   (updatePost_error_order [mkPub 0] 0 ⟨0, "user"⟩ bodyBad).2.2 (mkPub 0)
     (by decide) (Or.inl (by decide)) (by decide)⟩

end Blog
